import Mathlib

/-!
Shopping-cart script (`src/script.js`): embedding and verified properties.

The script keeps a cart (a list of line items) in memory, mirrors it into
`localStorage`, renders it into DOM containers and turns it into an order at
checkout.  This file embeds the script's functions as Lean definitions and
proves properties of them.

Conventions of the embedding

* A JavaScript Number is an IEEE 754 binary64 value (`JSNumber`); arithmetic
  is exact arithmetic followed by round-to-nearest-even.
* A line item is the object `{ name, price, qty, img }` built on line 133.
  Quantities are integer-valued Numbers (they start at 1 and move in steps of
  1); they are carried as `Int`, which agrees with binary64 arithmetic below
  `2^53`.
* A JavaScript string is carried as a Lean `String`.
* A handler that throws (`TypeError`, `SyntaxError`) returns `none` /
  `Except.error`.
-/

namespace Script

/-! ## Numbers -/

/-- A JavaScript Number: `NaN`, `±Infinity`, or the finite value
`(-1)^neg * m * 2^e` (`fin true 0 0` is `-0`). -/
inductive JSNumber where
  | nan
  | inf (neg : Bool)
  | fin (neg : Bool) (m : Nat) (e : Int)
deriving DecidableEq, Repr

namespace JSNumber

/-- Positive zero. -/
def zero : JSNumber := fin false 0 0

/-- Floor of the base-2 logarithm of `n` (0 for `n < 2`), by halving at most
`fuel` times. -/
def log2Fuel : Nat → Nat → Nat
  | 0, _ => 0
  | fuel + 1, n => if n < 2 then 0 else log2Fuel fuel (n / 2) + 1

/-- Floor of the base-2 logarithm of `n` (0 for `n = 0`). -/
def log2 (n : Nat) : Nat := log2Fuel n n

/-- Removes factors of two from the mantissa (at most `fuel` of them), so that a
non-zero finite value has one representation. -/
def stripTwos : Nat → Nat → Int → Nat × Int
  | 0, m, e => (m, e)
  | fuel + 1, m, e =>
    if m ≠ 0 ∧ m % 2 = 0 then stripTwos fuel (m / 2) (e + 1) else (m, e)

/-- The finite number `(-1)^neg * m * 2^e` in normal form. -/
def mkFin (neg : Bool) (m : Nat) (e : Int) : JSNumber :=
  if m = 0 then fin neg 0 0
  else
    let r := stripTwos m m e
    fin neg r.1 r.2

/-- Floor of the base-2 logarithm of the positive rational `n / d`. -/
def floorLog2 (n d : Nat) : Int :=
  let l0 : Int := (log2 n : Int) - (log2 d : Int)
  let ge : Bool :=
    if 0 ≤ l0 then decide (d * 2 ^ l0.toNat ≤ n) else decide (d ≤ n * 2 ^ (-l0).toNat)
  if ge then l0 else l0 - 1

/-- The binary64 value nearest to `(-1)^neg * (n / d) * 2^e` (`d > 0`), ties to
the even mantissa, overflow to infinity, gradual underflow to zero. -/
def roundRatio (neg : Bool) (n d : Nat) (e : Int) : JSNumber :=
  if n = 0 then fin neg 0 0
  else
    let top : Int := floorLog2 n d + e
    let p : Int := max (top - 52) (-1074)
    let num : Nat := if p ≤ e then n * 2 ^ (e - p).toNat else n
    let den : Nat := if p ≤ e then d else d * 2 ^ (p - e).toNat
    let q := num / den
    let r := num % den
    let m := if den < 2 * r ∨ (2 * r = den ∧ q % 2 = 1) then q + 1 else q
    if 971 < p ∨ (p = 971 ∧ 2 ^ 53 ≤ m) then inf neg
    else mkFin neg m p

/-- Number of an integer. -/
def ofInt (z : Int) : JSNumber := roundRatio (decide (z < 0)) z.natAbs 1 0

/-- Number addition (`+` on two Numbers). -/
def add : JSNumber → JSNumber → JSNumber
  | nan, _ => nan
  | _, nan => nan
  | inf a, inf b => if a = b then inf a else nan
  | inf a, fin _ _ _ => inf a
  | fin _ _ _, inf b => inf b
  | fin s1 m1 e1, fin s2 m2 e2 =>
    if m1 = 0 ∧ m2 = 0 then fin (s1 && s2) 0 0
    else
      let e := min e1 e2
      let a : Int := (if s1 then -1 else 1) * ((m1 * 2 ^ (e1 - e).toNat : Nat) : Int)
      let b : Int := (if s2 then -1 else 1) * ((m2 * 2 ^ (e2 - e).toNat : Nat) : Int)
      let s := a + b
      if s = 0 then fin false 0 0 else roundRatio (decide (s < 0)) s.natAbs 1 e

/-- Number multiplication (`*` on two Numbers). -/
def mul : JSNumber → JSNumber → JSNumber
  | nan, _ => nan
  | _, nan => nan
  | inf a, inf b => inf (xor a b)
  | inf a, fin s m _ => if m = 0 then nan else inf (xor a s)
  | fin s m _, inf b => if m = 0 then nan else inf (xor s b)
  | fin s1 m1 e1, fin s2 m2 e2 =>
    if m1 = 0 ∨ m2 = 0 then fin (xor s1 s2) 0 0
    else roundRatio (xor s1 s2) (m1 * m2) 1 (e1 + e2)

/-- Strict equality `===` on two Numbers: `NaN` equals nothing, `+0` equals `-0`,
otherwise equality of values. -/
def strictEq : JSNumber → JSNumber → Bool
  | nan, _ => false
  | _, nan => false
  | inf a, inf b => a == b
  | inf _, fin _ _ _ => false
  | fin _ _ _, inf _ => false
  | fin s1 m1 e1, fin s2 m2 e2 =>
    if m1 = 0 ∧ m2 = 0 then true
    else
      let e := min e1 e2
      s1 == s2 && decide (m1 * 2 ^ (e1 - e).toNat = m2 * 2 ^ (e2 - e).toNat)

/-- Whether the value is neither `NaN` nor infinite. -/
def isFinite : JSNumber → Bool
  | fin _ _ _ => true
  | _ => false

/-! ### Number to text: `Number::toString` and `Number.prototype.toFixed(2)` -/

/-- Whether `n / d < 10 ^ k` (`d > 0`). -/
def ltPow10 (n d : Nat) (k : Int) : Bool :=
  if 0 ≤ k then decide (n < d * 10 ^ k.toNat) else decide (n * 10 ^ (-k).toNat < d)

/-- The least `k` at or above the starting point with `n / d < 10 ^ k`, trying at
most `fuel` exponents. -/
def decimalExponent (n d : Nat) : Nat → Int → Int
  | 0, k => k
  | fuel + 1, k => if ltPow10 n d k then k else decimalExponent n d fuel (k + 1)

/-- Floor of `(n / d) / 10 ^ p`. -/
def floorScaled (n d : Nat) (p : Int) : Nat :=
  if 0 ≤ p then n / (d * 10 ^ p.toNat) else (n * 10 ^ (-p).toNat) / d

/-- The Number nearest to `s * 10 ^ p`. -/
def ofDecimal (neg : Bool) (s : Nat) (p : Int) : JSNumber :=
  if 0 ≤ p then roundRatio neg (s * 10 ^ p.toNat) 1 0 else roundRatio neg s (10 ^ (-p).toNat) 0

/-- Whether `2 * (n / d) < c * 10 ^ p`. -/
def twiceLt (n d c : Nat) (p : Int) : Bool :=
  if 0 ≤ p then decide (2 * n < c * 10 ^ p.toNat * d) else decide (2 * n * 10 ^ (-p).toNat < c * d)

/-- Whether `2 * (n / d) = c * 10 ^ p`. -/
def twiceEq (n d c : Nat) (p : Int) : Bool :=
  if 0 ≤ p then decide (2 * n = c * 10 ^ p.toNat * d) else decide (2 * n * 10 ^ (-p).toNat = c * d)

/-- The digits `s`, their number `k` and the decimal exponent `n` of
`Number::toString`: `s * 10 ^ (n - k)` reads back as the number, with `k` least. -/
structure ShortestDecimal where
  s : Nat
  n : Int
  k : Nat
deriving DecidableEq, Repr

/-- Search for the shortest digit string that reads back as the positive finite
number `x = n / d`, whose decimal exponent is `n0` (`10^(n0-1) ≤ x < 10^n0`),
starting with `k` digits and trying `fuel` lengths.  With `k` digits the two
candidates are the neighbours `lo` and `lo + 1` of `x / 10^(n0-k)`; when both read
back as `x` the closer one is taken, the even one on a tie.  Seventeen digits
always determine a binary64 value, so the final case is never reached from
`k = 1` with fuel 17. -/
def shortestFrom (x : JSNumber) (n d : Nat) (n0 : Int) : Nat → Nat → ShortestDecimal
  | 0, k => { s := floorScaled n d (n0 - k), n := n0, k := k }
  | fuel + 1, k =>
    let p : Int := n0 - k
    let lo := floorScaled n d p
    let hi := lo + 1
    let okLo := strictEq (ofDecimal false lo p) x
    let okHi := strictEq (ofDecimal false hi p) x
    let rLo : ShortestDecimal := { s := lo, n := n0, k := k }
    let rHi : ShortestDecimal :=
      if hi = 10 ^ k then { s := 10 ^ (k - 1), n := n0 + 1, k := k } else { s := hi, n := n0, k := k }
    if okLo && okHi then
      if twiceLt n d (2 * lo + 1) p then rLo
      else if twiceEq n d (2 * lo + 1) p then (if lo % 2 = 0 then rLo else rHi)
      else rHi
    else if okLo then rLo
    else if okHi then rHi
    else shortestFrom x n d n0 fuel (k + 1)

/-- The triple `(s, n, k)` of `Number::toString` for the positive finite number
`m * 2^e`. -/
def shortest (m : Nat) (e : Int) : ShortestDecimal :=
  let n : Nat := if 0 ≤ e then m * 2 ^ e.toNat else m
  let d : Nat := if 0 ≤ e then 1 else 2 ^ (-e).toNat
  let n0 := decimalExponent n d 640 (-324)
  shortestFrom (fin false m e) n d n0 17 1

/-- Decimal digits of a natural number, most significant first. -/
def digits (n : Nat) : List Char := Nat.toDigits 10 n

/-- The text of `Number::toString` for the triple `(s, n, k)`. -/
def formatShortest (r : ShortestDecimal) : List Char :=
  let ds := digits r.s
  if (r.k : Int) ≤ r.n ∧ r.n ≤ 21 then ds ++ List.replicate (r.n - r.k).toNat '0'
  else if 0 < r.n ∧ r.n ≤ 21 then ds.take r.n.toNat ++ '.' :: ds.drop r.n.toNat
  else if -6 < r.n ∧ r.n ≤ 0 then '0' :: '.' :: (List.replicate (-r.n).toNat '0' ++ ds)
  else
    let ex : Int := r.n - 1
    let sign : Char := if ex < 0 then '-' else '+'
    if r.k = 1 then ds ++ 'e' :: sign :: digits ex.natAbs
    else ds.take 1 ++ '.' :: (ds.drop 1 ++ 'e' :: sign :: digits ex.natAbs)

/-- `Number::toString(x)` in radix 10. -/
def toStr : JSNumber → String
  | nan => "NaN"
  | inf neg => if neg then "-Infinity" else "Infinity"
  | fin neg m e =>
    if m = 0 then "0"
    else String.mk ((if neg then ['-'] else []) ++ formatShortest (shortest m e))

/-- The integer `n` of `toFixed(2)` for the non-negative value `m * 2^e`: the
integer nearest to `100 * m * 2^e`, the larger one on a tie. -/
def hundredths (m : Nat) (e : Int) : Nat :=
  if 0 ≤ e then 100 * (m * 2 ^ e.toNat)
  else (200 * m + 2 ^ (-e).toNat) / (2 * 2 ^ (-e).toNat)

/-- The digits of `n` padded with leading zeros to at least three characters, with
a point before the last two. -/
def fixed2Digits (n : Nat) : List Char :=
  let ds := digits n
  let padded := List.replicate (3 - ds.length) '0' ++ ds
  padded.take (padded.length - 2) ++ '.' :: padded.drop (padded.length - 2)

/-- Whether `10^21 ≤ m * 2^e`. -/
def atLeast1e21 (m : Nat) (e : Int) : Bool :=
  if 0 ≤ e then decide (10 ^ 21 ≤ m * 2 ^ e.toNat) else decide (10 ^ 21 * 2 ^ (-e).toNat ≤ m)

/-- `Number.prototype.toFixed(2)`. -/
def toFixed2 : JSNumber → String
  | nan => "NaN"
  | inf neg => if neg then "-Infinity" else "Infinity"
  | fin neg m e =>
    let sign : List Char := if neg ∧ m ≠ 0 then ['-'] else []
    if atLeast1e21 m e then String.mk sign ++ toStr (fin false m e)
    else String.mk (sign ++ fixed2Digits (hundredths m e))

end JSNumber

/-! ## JSON values, `JSON.stringify` and `JSON.parse` -/

mutual
/-- A value that `JSON.parse` can return or `JSON.stringify` can be given. -/
inductive JSVal where
  | null
  | bool (b : Bool)
  | num (x : JSNumber)
  | str (s : String)
  | arr (items : JSItems)
  | obj (props : JSProps)
/-- The elements of an array, in order. -/
inductive JSItems where
  | nil
  | cons (head : JSVal) (tail : JSItems)
/-- The own properties of an object, in enumeration order. -/
inductive JSProps where
  | nil
  | cons (key : String) (value : JSVal) (tail : JSProps)
end

/-- The array of a list of values. -/
def JSItems.ofList : List JSVal → JSItems
  | [] => JSItems.nil
  | v :: vs => JSItems.cons v (JSItems.ofList vs)

/-- The object of a list of key-value pairs. -/
def JSProps.ofList : List (String × JSVal) → JSProps
  | [] => JSProps.nil
  | kv :: rest => JSProps.cons kv.1 kv.2 (JSProps.ofList rest)

/-- Whether the value is an array (`Array.isArray`). -/
def JSVal.isArray : JSVal → Bool
  | JSVal.arr _ => true
  | _ => false

/-- The lower-case hexadecimal digit of a number below 16. -/
def hexDigit (n : Nat) : Char :=
  if n < 10 then Char.ofNat (48 + n) else Char.ofNat (87 + n)

/-- One character of `QuoteJSONString`. -/
def quoteChar (c : Char) : List Char :=
  if c = '"' then ['\\', '"']
  else if c = '\\' then ['\\', '\\']
  else if c.toNat = 8 then ['\\', 'b']
  else if c.toNat = 12 then ['\\', 'f']
  else if c = '\n' then ['\\', 'n']
  else if c = '\r' then ['\\', 'r']
  else if c = '\t' then ['\\', 't']
  else if c.toNat < 32 then ['\\', 'u', '0', '0', hexDigit (c.toNat / 16), hexDigit (c.toNat % 16)]
  else [c]

/-- The characters of a string, each through `quoteChar`. -/
def quoteChars : List Char → List Char
  | [] => []
  | c :: cs => quoteChar c ++ quoteChars cs

/-- `QuoteJSONString`. -/
def quoteString (s : String) : List Char :=
  '"' :: (quoteChars s.data ++ ['"'])

mutual
/-- `SerializeJSONProperty` without indentation: a Number that is not finite is
written `null`. -/
def serializeValue : JSVal → List Char
  | JSVal.null => "null".data
  | JSVal.bool b => if b then "true".data else "false".data
  | JSVal.num x => if x.isFinite then (JSNumber.toStr x).data else "null".data
  | JSVal.str s => quoteString s
  | JSVal.arr items => '[' :: (serializeItems items ++ [']'])
  | JSVal.obj props => "\x7b".data ++ serializeProps props ++ "\x7d".data
/-- The elements of an array, separated by commas. -/
def serializeItems : JSItems → List Char
  | JSItems.nil => []
  | JSItems.cons v JSItems.nil => serializeValue v
  | JSItems.cons v rest => serializeValue v ++ ',' :: serializeItems rest
/-- The properties of an object, separated by commas. -/
def serializeProps : JSProps → List Char
  | JSProps.nil => []
  | JSProps.cons k v JSProps.nil => quoteString k ++ ':' :: serializeValue v
  | JSProps.cons k v rest => quoteString k ++ ':' :: serializeValue v ++ ',' :: serializeProps rest
end

/-- `JSON.stringify(value)`. -/
def jsonStringify (v : JSVal) : String := String.mk (serializeValue v)

/-- JSON white space. -/
def isWs (c : Char) : Bool := c = ' ' || c = '\t' || c = '\n' || c = '\r'

/-- Drops leading JSON white space. -/
def skipWs : List Char → List Char
  | [] => []
  | c :: cs => if isWs c then skipWs cs else c :: cs

/-- The value of a hexadecimal digit. -/
def hexVal (c : Char) : Option Nat :=
  if '0' ≤ c ∧ c ≤ '9' then some (c.toNat - 48)
  else if 'a' ≤ c ∧ c ≤ 'f' then some (c.toNat - 87)
  else if 'A' ≤ c ∧ c ≤ 'F' then some (c.toNat - 55)
  else none

/-- The code unit of four hexadecimal digits. -/
def hex4 (a b c d : Char) : Option Nat :=
  match hexVal a, hexVal b, hexVal c, hexVal d with
  | some w, some x, some y, some z => some (((w * 16 + x) * 16 + y) * 16 + z)
  | _, _, _, _ => none

/-- The character of a single-character escape. -/
def simpleEscape (c : Char) : Option Char :=
  if c = '"' then some '"'
  else if c = '\\' then some '\\'
  else if c = '/' then some '/'
  else if c = 'b' then some (Char.ofNat 8)
  else if c = 'f' then some (Char.ofNat 12)
  else if c = 'n' then some '\n'
  else if c = 'r' then some '\r'
  else if c = 't' then some '\t'
  else none

/-- The UTF-16 code units of a character. -/
def codeUnits (c : Char) : List Nat :=
  if c.toNat < 65536 then [c.toNat]
  else [55296 + (c.toNat - 65536) / 1024, 56320 + (c.toNat - 65536) % 1024]

/-- The characters of a sequence of UTF-16 code units: a high surrogate followed
by a low one is one character; a surrogate on its own, which a Lean string cannot
hold, is read as U+FFFD. -/
def decodeUnits : List Nat → List Char
  | [] => []
  | [u] => [if 55296 ≤ u ∧ u < 57344 then Char.ofNat 65533 else Char.ofNat u]
  | u :: v :: rest =>
    if 55296 ≤ u ∧ u < 56320 ∧ 56320 ≤ v ∧ v < 57344 then
      Char.ofNat (65536 + (u - 55296) * 1024 + (v - 56320)) :: decodeUnits rest
    else
      (if 55296 ≤ u ∧ u < 57344 then Char.ofNat 65533 else Char.ofNat u) :: decodeUnits (v :: rest)

/-- The code units of a JSON string after its opening quote, and the text after
the closing quote. -/
def parseStringUnits : List Char → Option (List Nat × List Char)
  | [] => none
  | '"' :: rest => some ([], rest)
  | '\\' :: 'u' :: a :: b :: c :: d :: rest =>
    match hex4 a b c d, parseStringUnits rest with
    | some u, some (us, r) => some (u :: us, r)
    | _, _ => none
  | '\\' :: e :: rest =>
    match simpleEscape e, parseStringUnits rest with
    | some ch, some (us, r) => some (ch.toNat :: us, r)
    | _, _ => none
  | ['\\'] => none
  | c :: rest =>
    if c.toNat < 32 then none
    else
      match parseStringUnits rest with
      | some (us, r) => some (codeUnits c ++ us, r)
      | none => none

/-- A JSON string after its opening quote. -/
def parseStringBody (cs : List Char) : Option (String × List Char) :=
  match parseStringUnits cs with
  | some (us, r) => some (String.mk (decodeUnits us), r)
  | none => none

/-- Whether the character is a decimal digit. -/
def isDigit (c : Char) : Bool := decide ('0' ≤ c) && decide (c ≤ '9')

/-- The leading decimal digits and the rest. -/
def spanDigits : List Char → List Char × List Char
  | [] => ([], [])
  | c :: cs =>
    if isDigit c then ((spanDigits cs).1.cons c, (spanDigits cs).2) else ([], c :: cs)

/-- The number written by a string of decimal digits. -/
def digitsValue (ds : List Char) : Nat :=
  ds.foldl (fun acc c => acc * 10 + (c.toNat - 48)) 0

/-- The integer part of a JSON number: `0`, or digits not starting with `0`. -/
def parseIntPart : List Char → Option (List Char × List Char)
  | [] => none
  | c :: cs =>
    if c = '0' then some (['0'], cs)
    else if isDigit c then some (spanDigits (c :: cs))
    else none

/-- The optional fraction of a JSON number: absent, or a point and at least one
digit. -/
def parseFraction : List Char → Option (List Char × List Char)
  | '.' :: cs =>
    match spanDigits cs with
    | ([], _) => none
    | (ds, rest) => some (ds, rest)
  | cs => some ([], cs)

/-- The optional exponent of a JSON number. -/
def parseExponent : List Char → Option (Int × List Char)
  | c :: cs =>
    if c = 'e' ∨ c = 'E' then
      let signed : Bool × List Char :=
        match cs with
        | '-' :: r => (true, r)
        | '+' :: r => (false, r)
        | r => (false, r)
      match spanDigits signed.2 with
      | ([], _) => none
      | (ds, rest) => some ((if signed.1 then -(digitsValue ds : Int) else (digitsValue ds : Int)), rest)
    else some (0, c :: cs)
  | [] => some (0, [])

/-- A JSON number and the text after it. -/
def parseNumber (cs : List Char) : Option (JSNumber × List Char) :=
  let negRest : Bool × List Char :=
    match cs with
    | '-' :: r => (true, r)
    | r => (false, r)
  match parseIntPart negRest.2 with
  | none => none
  | some (ip, r1) =>
    match parseFraction r1 with
    | none => none
    | some (fp, r2) =>
      match parseExponent r2 with
      | none => none
      | some (ex, r3) =>
        some (JSNumber.ofDecimal negRest.1 (digitsValue (ip ++ fp)) (ex - fp.length), r3)

/-- Whether the key is a canonical array index (`"0"`, `"1"`, ... below `2^32 - 1`),
and its value. -/
def arrayIndex (k : String) : Option Nat :=
  let cs := k.data
  if cs = ['0'] then some 0
  else
    match cs with
    | [] => none
    | c :: _ =>
      if c ≠ '0' ∧ cs.all isDigit ∧ cs.length ≤ 10 ∧ digitsValue cs < 4294967295 then
        some (digitsValue cs)
      else none

/-- Whether the object has the key. -/
def JSProps.has : JSProps → String → Bool
  | JSProps.nil, _ => false
  | JSProps.cons k0 _ rest, k => k0 == k || JSProps.has rest k

/-- `CreateDataProperty` on a property list: an existing key keeps its place and
takes the new value; a new array-index key goes before the first larger index
and before every other key, any other new key goes last. -/
def JSProps.set : JSProps → String → JSVal → JSProps
  | JSProps.nil, k, v => JSProps.cons k v JSProps.nil
  | JSProps.cons k0 v0 rest, k, v =>
    if k0 = k then JSProps.cons k0 v rest
    else
      match arrayIndex k, arrayIndex k0 with
      | some i, some i0 =>
        if i < i0 ∧ ¬ JSProps.has rest k then JSProps.cons k v (JSProps.cons k0 v0 rest)
        else JSProps.cons k0 v0 (JSProps.set rest k v)
      | some _, none =>
        if JSProps.has rest k then JSProps.cons k0 v0 (JSProps.set rest k v)
        else JSProps.cons k v (JSProps.cons k0 v0 rest)
      | none, _ => JSProps.cons k0 v0 (JSProps.set rest k v)

mutual
/-- A JSON value at the head of the text (after white space), and the text after
it; `fuel` bounds the number of nested calls. -/
def parseValue : Nat → List Char → Option (JSVal × List Char)
  | 0, _ => none
  | fuel + 1, cs =>
    match skipWs cs with
    | 'n' :: 'u' :: 'l' :: 'l' :: rest => some (JSVal.null, rest)
    | 't' :: 'r' :: 'u' :: 'e' :: rest => some (JSVal.bool true, rest)
    | 'f' :: 'a' :: 'l' :: 's' :: 'e' :: rest => some (JSVal.bool false, rest)
    | '"' :: rest =>
      match parseStringBody rest with
      | some (s, r) => some (JSVal.str s, r)
      | none => none
    | '[' :: rest =>
      match skipWs rest with
      | ']' :: r => some (JSVal.arr JSItems.nil, r)
      | r =>
        match parseElements fuel r with
        | some (items, r1) => some (JSVal.arr items, r1)
        | none => none
    | '\x7b' :: rest =>
      match skipWs rest with
      | '\x7d' :: r => some (JSVal.obj JSProps.nil, r)
      | r =>
        match parseMembers fuel JSProps.nil r with
        | some (props, r1) => some (JSVal.obj props, r1)
        | none => none
    | other =>
      match parseNumber other with
      | some (x, r) => some (JSVal.num x, r)
      | none => none
/-- The elements of a non-empty array up to and including the closing bracket. -/
def parseElements : Nat → List Char → Option (JSItems × List Char)
  | 0, _ => none
  | fuel + 1, cs =>
    match parseValue fuel cs with
    | none => none
    | some (v, r) =>
      match skipWs r with
      | ',' :: r1 =>
        match parseElements fuel r1 with
        | some (items, r2) => some (JSItems.cons v items, r2)
        | none => none
      | ']' :: r1 => some (JSItems.cons v JSItems.nil, r1)
      | _ => none
/-- The members of a non-empty object up to and including the closing brace,
added to the properties read so far. -/
def parseMembers : Nat → JSProps → List Char → Option (JSProps × List Char)
  | 0, _, _ => none
  | fuel + 1, acc, cs =>
    match skipWs cs with
    | '"' :: r =>
      match parseStringBody r with
      | none => none
      | some (k, r1) =>
        match skipWs r1 with
        | ':' :: r2 =>
          match parseValue fuel r2 with
          | none => none
          | some (v, r3) =>
            match skipWs r3 with
            | ',' :: r4 => parseMembers fuel (JSProps.set acc k v) r4
            | '\x7d' :: r4 => some (JSProps.set acc k v, r4)
            | _ => none
        | _ => none
    | _ => none
end

/-- `JSON.parse(text)`: the value of the text, or the `SyntaxError` it throws.
Every nested call consumes a character, so `2 * length + 2` calls suffice. -/
def jsonParse (text : String) : Except String JSVal :=
  match parseValue (2 * text.length + 2) text.data with
  | some (v, rest) =>
    match skipWs rest with
    | [] => Except.ok v
    | _ => Except.error "SyntaxError"
  | none => Except.error "SyntaxError"

/-! ## Line items and the cart reducer -/

/-- The object `{ name, price, qty, img }` of line 133. -/
structure LineItem where
  name : String
  price : JSNumber
  qty : Int
  img : String
deriving DecidableEq, Repr

/-- The expression `it.qty || 1`: a zero quantity reads as 1. -/
def qtyOr1 (q : Int) : Int := if q = 0 then 1 else q

/-- The predicate of `findIndexByProduct` (line 34):
`i.name === product.name && Number(i.price) === Number(product.price) && i.img === product.img`. -/
def sameProduct (product i : LineItem) : Bool :=
  i.name == product.name && JSNumber.strictEq i.price product.price && i.img == product.img

/-- `cart.findIndex(pred)` counted from `k`: index of the first item satisfying
the predicate. -/
def findIndexFrom (pred : LineItem → Bool) : List LineItem → Nat → Option Nat
  | [], _ => none
  | it :: rest, k => if pred it then some k else findIndexFrom pred rest (k + 1)

/-- `findIndexByProduct` (lines 33-35); `none` stands for the result `-1`. -/
def findIndexByProduct (cart : List LineItem) (product : LineItem) : Option Nat :=
  findIndexFrom (sameProduct product) cart 0

namespace Cart

/-- The statement `cart[idx].qty = (cart[idx].qty || 1) + 1` (lines 81, 136);
`none` when `cart[idx]` is `undefined` (the statement throws a `TypeError`). -/
def inc (cart : List LineItem) (idx : Nat) : Option (List LineItem) :=
  match cart[idx]? with
  | none => none
  | some it => some (cart.set idx { it with qty := qtyOr1 it.qty + 1 })

/-- Cart part of the `.dec` handler (lines 85-88): lower the quantity, and splice
the item out when the result is `<= 0`; `none` when `cart[idx]` is `undefined`. -/
def dec (cart : List LineItem) (idx : Nat) : Option (List LineItem) :=
  match cart[idx]? with
  | none => none
  | some it =>
    let q := qtyOr1 it.qty - 1
    let cart1 := cart.set idx { it with qty := q }
    if q ≤ 0 then some (cart1.eraseIdx idx) else some cart1

/-- Cart part of the `.remove-btn` handler (line 92): `cart.splice(idx, 1)`. -/
def remove (cart : List LineItem) (idx : Nat) : List LineItem :=
  cart.eraseIdx idx

/-- Cart part of `window.addToCart` (lines 133-139); `name`, `price`, `img` are
the values `String(name)`, `Number(price)`, `img || ''`.  The index that
`findIndexByProduct` returns is an index of the cart, so the increment on line 136
does not throw. -/
def addToCart (cart : List LineItem) (name : String) (price : JSNumber) (img : String) :
    List LineItem :=
  let product : LineItem := { name := name, price := price, qty := 1, img := img }
  match findIndexByProduct cart product with
  | some idx =>
    match inc cart idx with
    | some cart1 => cart1
    | none => cart
  | none => cart ++ [product]

/-- The reduction `cart.reduce((s, it) => s + Number(it.price) * (it.qty || 1), 0)`
of lines 97 and 225. -/
def subtotal (cart : List LineItem) : JSNumber :=
  cart.foldl (fun s it => JSNumber.add s (JSNumber.mul it.price (JSNumber.ofInt (qtyOr1 it.qty))))
    JSNumber.zero

/-- The reduction `cart.reduce((s, it) => s + (it.qty || 1), 0)` of line 46. -/
def totalQty (cart : List LineItem) : Int :=
  cart.foldl (fun s it => s + qtyOr1 it.qty) 0

end Cart

/-! ## Markup -/

/-- The replacement table of `escapeHtml` (line 252). -/
def escapeChar (c : Char) : List Char :=
  if c = '&' then ['&', 'a', 'm', 'p', ';']
  else if c = '<' then ['&', 'l', 't', ';']
  else if c = '>' then ['&', 'g', 't', ';']
  else if c = '"' then ['&', 'q', 'u', 'o', 't', ';']
  else if c = '\'' then ['&', '#', '3', '9', ';']
  else [c]

/-- The global replace of `escapeHtml` on the characters of the string. -/
def escapeChars : List Char → List Char
  | [] => []
  | c :: cs => escapeChar c ++ escapeChars cs

/-- `escapeHtml` (lines 251-253). -/
def escapeHtml (s : String) : String := String.mk (escapeChars s.data)

/-- Replaces each of the five entities `&amp;` `&lt;` `&gt;` `&quot;` `&#39;` by
its character, left to right; every step consumes a character, and `fuel` bounds
the number of steps. -/
def unescapeFuel : Nat → List Char → List Char
  | 0, _ => []
  | fuel + 1, cs =>
    if ['&', 'a', 'm', 'p', ';'].isPrefixOf cs then '&' :: unescapeFuel fuel (cs.drop 5)
    else if ['&', 'l', 't', ';'].isPrefixOf cs then '<' :: unescapeFuel fuel (cs.drop 4)
    else if ['&', 'g', 't', ';'].isPrefixOf cs then '>' :: unescapeFuel fuel (cs.drop 4)
    else if ['&', 'q', 'u', 'o', 't', ';'].isPrefixOf cs then '"' :: unescapeFuel fuel (cs.drop 6)
    else if ['&', '#', '3', '9', ';'].isPrefixOf cs then '\'' :: unescapeFuel fuel (cs.drop 5)
    else
      match cs with
      | [] => []
      | c :: rest => c :: unescapeFuel fuel rest

/-- Replaces each of the five entities by its character in the whole text. -/
def unescapeChars (cs : List Char) : List Char := unescapeFuel cs.length cs

/-- The inverse reading of `escapeHtml` on strings. -/
def unescapeHtml (s : String) : String := String.mk (unescapeChars s.data)

/-- Whether one of the five entities starts the text. -/
def startsEntity (cs : List Char) : Bool :=
  ['&', 'a', 'm', 'p', ';'].isPrefixOf cs || ['&', 'l', 't', ';'].isPrefixOf cs ||
  ['&', 'g', 't', ';'].isPrefixOf cs || ['&', 'q', 'u', 'o', 't', ';'].isPrefixOf cs ||
  ['&', '#', '3', '9', ';'].isPrefixOf cs

/-- `money` (line 14): `Number(n).toFixed(2)`. -/
def money (n : JSNumber) : String := JSNumber.toFixed2 n

/-- The text of an integer-valued Number in a template literal. -/
def intText (z : Int) : String := JSNumber.toStr (JSNumber.ofInt z)

/-- The markup before the first occurrence of the name in a row (line 65):
`it.img || placeholder` inside the `src` attribute. -/
def rowBeforeName (img : String) : String :=
  "\n        <img src=\"" ++
    (if img = "" then "https://via.placeholder.com/160x100?text=img" else img) ++ "\" alt=\""

/-- The markup between the two occurrences of the name in a row (lines 65-67). -/
def rowBetweenNames : String :=
  "\">\n        <div class=\"meta\">\n          <h4>"

/-- The markup after the second occurrence of the name in a row (lines 67-75). -/
def rowAfterName (price : JSNumber) (qty : Int) (idx : Nat) : String :=
  "</h4>\n          <div class=\"price\">$" ++ money price ++ " × " ++ intText (qtyOr1 qty) ++
    "</div>\n        </div>\n        <div class=\"qty-controls\" data-index=\"" ++
    intText idx ++
    "\">\n          <button class=\"dec\" aria-label=\"Decrease\">−</button>\n" ++
    "          <button class=\"inc\" aria-label=\"Increase\">+</button>\n" ++
    "          <button class=\"remove-btn\" aria-label=\"Remove\">✖</button>\n" ++
    "        </div>\n      "

/-- The template literal assigned to `div.innerHTML` (lines 64-75). -/
def rowHtml (it : LineItem) (idx : Nat) : String :=
  rowBeforeName it.img ++ escapeHtml it.name ++ rowBetweenNames ++ escapeHtml it.name ++
    rowAfterName it.price it.qty idx

/-- A `div.cart-item` appended by `renderCartInto`: its markup and the index
`idx` that its three click handlers close over. -/
structure Row where
  html : String
  idx : Nat
deriving DecidableEq, Repr

/-- A container node: the markup assigned to `innerHTML` directly and the rows
appended after it. -/
structure Container where
  html : String
  rows : List Row
deriving DecidableEq, Repr

/-- The rows of `cart.forEach((it, idx) => ...)` (lines 60-95), numbered from `k`. -/
def rowsFrom : List LineItem → Nat → List Row
  | [], _ => []
  | it :: rest, k => { html := rowHtml it k, idx := k } :: rowsFrom rest (k + 1)

/-- The text written into the subtotal node on line 97. -/
def subtotalText (cart : List LineItem) : String :=
  "$" ++ money (Cart.subtotal cart)

/-- `renderCartInto(containerNode, subtotalNodeToUpdate)` (lines 51-98) on the
container and the text of the subtotal node; `none` is a node that is absent. -/
def renderCartInto (cart : List LineItem) (container : Option Container)
    (subtotalNode : Option String) : Option Container × Option String :=
  match container with
  | none => (none, subtotalNode)
  | some _ =>
    if cart.length = 0 then
      (some { html := "<div class=\"muted\">Your cart is empty.</div>", rows := [] },
        subtotalNode.map (fun _ => "$0.00"))
    else
      (some { html := "", rows := rowsFrom cart 0 },
        subtotalNode.map (fun _ => subtotalText cart))

/-! ## Page state and handlers -/

/-- The two `localStorage` entries the script uses. -/
structure Storage where
  cart : Option String
  order : Option String
deriving DecidableEq, Repr

/-- The nodes of the page the script writes to; `none` is a node the page does not
have. -/
structure Dom where
  /-- The first `#cart-items`. -/
  cartItems : Option Container
  /-- The text of the first `#cart-subtotal`. -/
  cartSubtotal : Option String
  /-- The node `#mini-cart-items`. -/
  miniItems : Option Container
  /-- The text of `#mini-cart-subtotal`. -/
  miniSubtotal : Option String
  /-- The texts of every `#cart-count`. -/
  cartCounts : List String
  /-- Whether the panel is open; `none` when `#cart-overlay` or `#cart-sidebar` is
  missing. -/
  panel : Option Bool
deriving DecidableEq, Repr

/-- The state of a page: the variable `cart`, `localStorage`, the nodes, and
`window.location.href` once the script has set it. -/
structure State where
  cart : List LineItem
  storage : Storage
  dom : Dom
  location : Option String
deriving DecidableEq, Repr

/-- The object of a line item, with the keys in the order of line 133. -/
def LineItem.toJS (it : LineItem) : JSVal :=
  JSVal.obj (JSProps.ofList
    [("name", JSVal.str it.name), ("price", JSVal.num it.price),
     ("qty", JSVal.num (JSNumber.ofInt it.qty)), ("img", JSVal.str it.img)])

/-- The array of the cart. -/
def cartToJS (cart : List LineItem) : JSVal :=
  JSVal.arr (JSItems.ofList (cart.map LineItem.toJS))

/-- `saveCart` (lines 28-30). -/
def saveCart (s : State) : State :=
  { s with storage := { s.storage with cart := some (jsonStringify (cartToJS s.cart)) } }

/-- `refreshCartCountUI` (lines 44-48). -/
def refreshCartCountUI (s : State) : State :=
  { s with dom := { s.dom with cartCounts := s.dom.cartCounts.map (fun _ => intText (Cart.totalQty s.cart)) } }

/-- `renderAllCartUIs` (lines 101-114). -/
def renderAllCartUIs (s : State) : State :=
  let side := renderCartInto s.cart s.dom.cartItems s.dom.cartSubtotal
  let mini :=
    match s.dom.miniItems with
    | some c => renderCartInto s.cart (some c) s.dom.miniSubtotal
    | none => (none, s.dom.miniSubtotal)
  refreshCartCountUI
    { s with dom := { s.dom with cartItems := side.1, cartSubtotal := side.2,
                                 miniItems := mini.1, miniSubtotal := mini.2 } }

/-- `openSidebar` (lines 117-123). -/
def openSidebar (s : State) : State :=
  match s.dom.panel with
  | none => s
  | some _ => renderAllCartUIs { s with dom := { s.dom with panel := some true } }

/-- `closeSidebar` (lines 124-129). -/
def closeSidebar (s : State) : State :=
  match s.dom.panel with
  | none => s
  | some _ => { s with dom := { s.dom with panel := some false } }

/-- `window.addToCart` (lines 132-141). -/
def addToCart (s : State) (name : String) (price : JSNumber) (img : String) : State :=
  openSidebar (renderAllCartUIs (saveCart { s with cart := Cart.addToCart s.cart name price img }))

/-- The `.inc` click handler of a row that captured `idx` (lines 80-83); `none`
when it throws. -/
def incClick (s : State) (idx : Nat) : Option State :=
  match Cart.inc s.cart idx with
  | none => none
  | some c => some (renderAllCartUIs (refreshCartCountUI (saveCart { s with cart := c })))

/-- The `.dec` click handler of a row that captured `idx` (lines 84-90); `none`
when it throws. -/
def decClick (s : State) (idx : Nat) : Option State :=
  match Cart.dec s.cart idx with
  | none => none
  | some c => some (renderAllCartUIs (refreshCartCountUI (saveCart { s with cart := c })))

/-- The `.remove-btn` click handler of a row that captured `idx` (lines 91-94). -/
def removeClick (s : State) (idx : Nat) : State :=
  renderAllCartUIs (refreshCartCountUI (saveCart { s with cart := Cart.remove s.cart idx }))

/-- `clearCart` (lines 162-167). -/
def clearCart (s : State) : State :=
  closeSidebar (renderAllCartUIs (saveCart { s with cart := [] }))

/-- The last step of `initCommon` (line 205): the initial render. -/
def initCommon (s : State) : State := renderAllCartUIs s

/-- The expression `v || ''` on a form value that is a string or `null`. -/
def orEmpty (v : Option String) : String :=
  match v with
  | some t => t
  | none => ""

/-- The values `formData.get` returns for the three named fields. -/
structure FormData where
  fullname : Option String
  email : Option String
  address : Option String
deriving DecidableEq, Repr

/-- The order object of lines 216-226. -/
structure Order where
  id : String
  date : String
  customerName : String
  customerEmail : String
  customerAddress : String
  items : List LineItem
  total : JSNumber
deriving DecidableEq, Repr

/-- The order object as a value, with the keys in the order of lines 216-226. -/
def Order.toJS (o : Order) : JSVal :=
  JSVal.obj (JSProps.ofList
    [("id", JSVal.str o.id), ("date", JSVal.str o.date),
     ("customer", JSVal.obj (JSProps.ofList
        [("name", JSVal.str o.customerName), ("email", JSVal.str o.customerEmail),
         ("address", JSVal.str o.customerAddress)])),
     ("items", cartToJS o.items), ("total", JSVal.num o.total)])

/-- The order built by the submit handler (lines 216-226): `rand` is the integer
`Math.floor(100000 + Math.random() * 900000)` and `date` the text of
`new Date().toISOString()`. -/
def buildOrder (cart : List LineItem) (rand : Nat) (date : String) (form : FormData) : Order :=
  { id := "ORD" ++ intText rand, date := date,
    customerName := orEmpty form.fullname, customerEmail := orEmpty form.email,
    customerAddress := orEmpty form.address,
    items := cart, total := Cart.subtotal cart }

/-- The submit handler of the checkout form (lines 212-233). -/
def submitCheckout (s : State) (rand : Nat) (date : String) (form : FormData) : State :=
  let order := buildOrder s.cart rand date form
  let s1 : State := { s with storage := { s.storage with order := some (jsonStringify order.toJS) } }
  let s2 := saveCart { s1 with cart := [] }
  { s2 with location := some "thankyou.html" }

/-- The expression `localStorage.getItem(key) || fallback`: the stored text, or the
fallback when the entry is absent or empty. -/
def getItemOr (stored : Option String) (fallback : String) : String :=
  match stored with
  | some t => if t = "" then fallback else t
  | none => fallback

/-- The initial value of `cart` (line 25): `JSON.parse(localStorage.getItem('cart') || '[]')`. -/
def loadCart (st : Storage) : Except String JSVal :=
  jsonParse (getItemOr st.cart "[]")

/-- The value of `order` on line 243: `JSON.parse(localStorage.getItem('order') || 'null')`. -/
def loadOrder (st : Storage) : Except String JSVal :=
  jsonParse (getItemOr st.order "null")

/-! ## Add-to-cart buttons -/

/-- The parts of a `.product-card` the click listener reads (lines 151-153);
`none` is an attribute or a child that is absent. -/
structure Card where
  dataName : Option String
  h3Text : Option String
  dataPrice : Option String
  priceText : Option String
  dataImg : Option String
  imgSrc : Option String
deriving DecidableEq, Repr

/-- An `.add-to-cart` button: its `data-bound` attribute, the number of click
listeners `attachAddButtons` has added to it, and its closest `.product-card`. -/
structure AddButton where
  bound : Option String
  listeners : Nat
  card : Option Card
deriving DecidableEq, Repr

/-- The expression `a || b` on two values that are a string or absent. -/
def orElse (a b : Option String) : Option String :=
  match a with
  | some t => if t = "" then b else some t
  | none => b

/-- `String(v)` on a string or `null`. -/
def stringOf (v : Option String) : String :=
  match v with
  | some t => t
  | none => "null"

/-- The character class `[\d.]`. -/
def isPriceChar (c : Char) : Bool := isDigit c || c = '.'

/-- The first match of `/[\d.]+/`: the leftmost maximal run of digits and points. -/
def firstRun : List Char → Option (List Char)
  | [] => none
  | c :: cs => if isPriceChar c then some (c :: cs.takeWhile isPriceChar) else firstRun cs

/-- `Number(text)` for a text of digits and points, as the match on line 155
returns: the numeral `digits`, `digits.`, `digits.digits` or `.digits`, and `NaN`
for any other such text. -/
def numberOfRun (cs : List Char) : JSNumber :=
  if cs = [] then JSNumber.zero
  else
    let ip := spanDigits cs
    match ip.2 with
    | [] => JSNumber.ofDecimal false (digitsValue ip.1) 0
    | '.' :: r =>
      let fp := spanDigits r
      if fp.2 = [] ∧ (ip.1 ≠ [] ∨ fp.1 ≠ []) then
        JSNumber.ofDecimal false (digitsValue (ip.1 ++ fp.1)) (-(fp.1.length : Int))
      else JSNumber.nan
    | _ => JSNumber.nan

/-- The price of line 155:
`Number((String(priceRaw).match(/[\d.]+/) || [0])[0])`. -/
def extractPrice (priceRaw : Option String) : JSNumber :=
  match firstRun (stringOf priceRaw).data with
  | some run => numberOfRun run
  | none => JSNumber.ofInt 0

/-- One run of the click listener of lines 148-157 on a button. -/
def addButtonListener (s : State) (btn : AddButton) : State :=
  match btn.card with
  | none => s
  | some card =>
    let name := orElse card.dataName card.h3Text
    let priceRaw := orElse card.dataPrice card.priceText
    let img := orElse card.dataImg card.imgSrc
    addToCart s (stringOf name) (extractPrice priceRaw) (orEmpty img)

/-- A click on a button: every listener the button carries runs once. -/
def clickAddButton (s : State) (btn : AddButton) : State :=
  Nat.iterate (fun t => addButtonListener t btn) btn.listeners s

/-- The user actions that run a handler of the script: a call of
`window.addToCart`, a click on the increment, decrement or remove control of a row
of `#cart-items` (`mini = false`) or of `#mini-cart-items` (`mini = true`), a
confirmed clear, and a submission of the checkout form. -/
inductive Event where
  | add (name : String) (price : JSNumber) (img : String)
  | inc (mini : Bool) (row : Nat)
  | dec (mini : Bool) (row : Nat)
  | remove (mini : Bool) (row : Nat)
  | clear
  | submit (rand : Nat) (date : String) (form : FormData)
deriving DecidableEq, Repr

/-- Whether the event is a submission of the checkout form. -/
def Event.isSubmit : Event → Bool
  | Event.submit _ _ _ => true
  | _ => false

/-- The index that the handlers of the given row of a container close over;
`none` when the page shows no such row. -/
def capturedIdx (s : State) (mini : Bool) (row : Nat) : Option Nat :=
  match (if mini then s.dom.miniItems else s.dom.cartItems) with
  | none => none
  | some c => (c.rows[row]?).map Row.idx

/-- One event: `none` when the page shows no such control; a handler that throws
leaves the state as it was when it threw, which for the increment and decrement
handlers is the state before the click. -/
def step (s : State) : Event → Option State
  | Event.add name price img => some (addToCart s name price img)
  | Event.inc mini row => (capturedIdx s mini row).map (fun idx => (incClick s idx).getD s)
  | Event.dec mini row => (capturedIdx s mini row).map (fun idx => (decClick s idx).getD s)
  | Event.remove mini row => (capturedIdx s mini row).map (fun idx => removeClick s idx)
  | Event.clear => some (clearCart s)
  | Event.submit rand date form => some (submitCheckout s rand date form)

/-- A sequence of events, one after the other. -/
def run (s : State) : List Event → Option State
  | [] => some s
  | ev :: evs =>
    match step s ev with
    | none => none
    | some s1 => run s1 evs

/-- The rows shown in each container are the rows of the current cart, in order:
row `k` shows line item `k` and its handlers hold the index `k`. -/
def RowsMatch (s : State) : Prop :=
  (∀ c, s.dom.cartItems = some c → c.rows = rowsFrom s.cart 0) ∧
  (∀ c, s.dom.miniItems = some c → c.rows = rowsFrom s.cart 0)

/-! ## Sample inputs -/

/-- A state with an empty cart on a page that has every node. -/
def sampleState : State :=
  { cart := [], storage := ⟨none, none⟩,
    dom := ⟨some ⟨"", []⟩, some "", some ⟨"", []⟩, some "", [""], some false⟩,
    location := none }

/-- A product card whose price text is `1.2.3`. -/
def dottedCard : Card :=
  { dataName := some "mug", h3Text := none, dataPrice := none, priceText := some "1.2.3",
    dataImg := none, imgSrc := none }

/-- A filled checkout form. -/
def sampleForm : FormData :=
  { fullname := some "Ann", email := some "ann@example.org", address := none }

/-- A state whose cart holds one mug at price 5, rendered. -/
def mugState : State :=
  initCommon { sampleState with cart := [⟨"mug", JSNumber.ofInt 5, 1, ""⟩] }

/-- The state after a cap is added to `mugState`. -/
def mugCapState : State := addToCart mugState "cap" (JSNumber.ofInt 7) ""

/-- The state after the checkout form is submitted in `mugState`. -/
def submittedState : State :=
  submitCheckout mugState 123456 "2024-01-01T00:00:00.000Z" sampleForm

/-! ## Theorems -/

/-! ### Handlers and the parts of the state they leave alone -/

@[simp] theorem saveCart_order (s : State) : (saveCart s).storage.order = s.storage.order := rfl

@[simp] theorem refreshCartCountUI_storage (s : State) :
    (refreshCartCountUI s).storage = s.storage := rfl

@[simp] theorem renderAllCartUIs_storage (s : State) :
    (renderAllCartUIs s).storage = s.storage := rfl

@[simp] theorem openSidebar_storage (s : State) : (openSidebar s).storage = s.storage := by
  unfold openSidebar
  split <;> simp

@[simp] theorem closeSidebar_storage (s : State) : (closeSidebar s).storage = s.storage := by
  unfold closeSidebar
  split <;> simp


/-! ### The cart reducer -/

theorem strictEq_self (x : JSNumber) (h : x ≠ JSNumber.nan) : JSNumber.strictEq x x = true := by
  cases x with
  | nan => exact absurd rfl h
  | inf a => simp [JSNumber.strictEq]
  | fin s m e => simp [JSNumber.strictEq]

theorem sameProduct_self (it : LineItem) (h : it.price ≠ JSNumber.nan) (q : Int) :
    sameProduct it { it with qty := q } = true := by
  simp [sameProduct, strictEq_self it.price h]

theorem inc_of_lt (cart : List LineItem) (i : Nat) (h : i < cart.length) :
    Cart.inc cart i = some (cart.set i { cart[i] with qty := qtyOr1 cart[i].qty + 1 }) := by
  simp [Cart.inc, List.getElem?_eq_getElem h]

@[simp] theorem saveCart_cart (s : State) : (saveCart s).cart = s.cart := rfl

@[simp] theorem refreshCartCountUI_cart (s : State) : (refreshCartCountUI s).cart = s.cart := rfl

@[simp] theorem renderAllCartUIs_cart (s : State) : (renderAllCartUIs s).cart = s.cart := rfl

@[simp] theorem openSidebar_cart (s : State) : (openSidebar s).cart = s.cart := by
  unfold openSidebar
  split <;> simp

@[simp] theorem closeSidebar_cart (s : State) : (closeSidebar s).cart = s.cart := by
  unfold closeSidebar
  split <;> simp

@[simp] theorem clearCart_cart (s : State) : (clearCart s).cart = [] := by
  simp [clearCart]

theorem eraseIdx_set_self {α : Type} (l : List α) (i : Nat) (a : α) :
    (l.set i a).eraseIdx i = l.eraseIdx i := by
  induction l generalizing i with
  | nil => simp
  | cons b l ih =>
    cases i with
    | zero => simp
    | succ i => simp [ih]

theorem dec_of_lt (cart : List LineItem) (i : Nat) (h : i < cart.length) :
    Cart.dec cart i =
      if qtyOr1 cart[i].qty - 1 ≤ 0 then some (cart.eraseIdx i)
      else some (cart.set i { cart[i] with qty := qtyOr1 cart[i].qty - 1 }) := by
  simp [Cart.dec, List.getElem?_eq_getElem h, eraseIdx_set_self]

theorem escapeChar_clean (c d : Char) (h : d ∈ escapeChar c) :
    d ≠ '<' ∧ d ≠ '>' ∧ d ≠ '"' ∧ d ≠ '\'' := by
  unfold escapeChar at h
  split_ifs at h with h1 h2 h3 h4 h5
  · simp at h; rcases h with h | h | h | h | h <;> subst h <;> decide
  · simp at h; rcases h with h | h | h | h <;> subst h <;> decide
  · simp at h; rcases h with h | h | h | h <;> subst h <;> decide
  · simp at h; rcases h with h | h | h | h | h | h <;> subst h <;> decide
  · simp at h; rcases h with h | h | h | h | h <;> subst h <;> decide
  · simp at h; subst h; exact ⟨h2, h3, h4, h5⟩

theorem escapeChars_clean (cs : List Char) :
    ∀ d ∈ escapeChars cs, d ≠ '<' ∧ d ≠ '>' ∧ d ≠ '"' ∧ d ≠ '\'' := by
  induction cs with
  | nil => simp [escapeChars]
  | cons c cs ih =>
    intro d hd
    simp only [escapeChars, List.mem_append] at hd
    rcases hd with hd | hd
    · exact escapeChar_clean c d hd
    · exact ih d hd

theorem escapeChars_amp (cs : List Char) :
    ∀ i : Nat, (escapeChars cs)[i]? = some '&' → startsEntity ((escapeChars cs).drop i) = true := by
  induction cs with
  | nil => simp [escapeChars]
  | cons c cs ih =>
    intro i h
    simp only [escapeChars, escapeChar] at h ⊢
    split_ifs at h ⊢ with h1 h2 h3 h4 h5
    · rcases i with _ | _ | _ | _ | _ | i
      · simp [startsEntity]
      all_goals simp at h
      simpa using ih i h
    · rcases i with _ | _ | _ | _ | i
      · simp [startsEntity]
      all_goals simp at h
      simpa using ih i h
    · rcases i with _ | _ | _ | _ | i
      · simp [startsEntity]
      all_goals simp at h
      simpa using ih i h
    · rcases i with _ | _ | _ | _ | _ | _ | i
      · simp [startsEntity]
      all_goals simp at h
      simpa using ih i h
    · rcases i with _ | _ | _ | _ | _ | i
      · simp [startsEntity]
      all_goals simp at h
      simpa using ih i h
    · rcases i with _ | i
      · simp at h
        exact absurd h h1
      · simp at h
        simpa using ih i h

theorem unescapeFuel_escapeChars (cs : List Char) :
    ∀ fuel : Nat, (escapeChars cs).length ≤ fuel → unescapeFuel fuel (escapeChars cs) = cs := by
  induction cs with
  | nil =>
    intro fuel _
    cases fuel <;> simp [escapeChars, unescapeFuel]
  | cons c cs ih =>
    intro fuel hf
    simp only [escapeChars, escapeChar] at hf ⊢
    split_ifs at hf ⊢ with h1 h2 h3 h4 h5
    · cases fuel with
      | zero => simp at hf
      | succ fuel =>
        subst h1
        simp [unescapeFuel, List.isPrefixOf]
        exact ih fuel (by simp at hf; omega)
    · cases fuel with
      | zero => simp at hf
      | succ fuel =>
        subst h2
        simp [unescapeFuel, List.isPrefixOf]
        exact ih fuel (by simp at hf; omega)
    · cases fuel with
      | zero => simp at hf
      | succ fuel =>
        subst h3
        simp [unescapeFuel, List.isPrefixOf]
        exact ih fuel (by simp at hf; omega)
    · cases fuel with
      | zero => simp at hf
      | succ fuel =>
        subst h4
        simp [unescapeFuel, List.isPrefixOf]
        exact ih fuel (by simp at hf; omega)
    · cases fuel with
      | zero => simp at hf
      | succ fuel =>
        subst h5
        simp [unescapeFuel, List.isPrefixOf]
        exact ih fuel (by simp at hf; omega)
    · cases fuel with
      | zero => simp at hf
      | succ fuel =>
        have h1' : ¬ '&' = c := fun h => h1 h.symm
        have hrec := ih fuel (by simp at hf; omega)
        simp [unescapeFuel, List.isPrefixOf, h1', hrec]

theorem unescape_escapeChars (cs : List Char) : unescapeChars (escapeChars cs) = cs :=
  unescapeFuel_escapeChars cs _ (Nat.le_refl _)

theorem rowsFrom_mem (cart : List LineItem) (k : Nat) (r : Row) (h : r ∈ rowsFrom cart k) :
    ∃ it ∈ cart, r.html = rowHtml it r.idx := by
  induction cart generalizing k with
  | nil => simp [rowsFrom] at h
  | cons a cart ih =>
    simp only [rowsFrom, List.mem_cons] at h
    rcases h with h | h
    · subst h
      exact ⟨a, by simp, rfl⟩
    · obtain ⟨it, hit, hr⟩ := ih (k + 1) h
      exact ⟨it, by simp [hit], hr⟩

/-- C7: for every string `s`, `escapeHtml s` holds none of the characters `<`, `>`,
`"` and `'`; every `&` in it starts one of the five entities; replacing the
entities by their characters gives `s` back, so `escapeHtml` is injective; and
every row that `renderCartInto` builds is the markup before the name, the escaped
name, the markup between, the escaped name again, and the markup after, where the
three surrounding pieces are built from the image, price, quantity and index
only. -/
theorem escapeHtml_safe (s : String) :
    (∀ c ∈ (escapeHtml s).data, c ≠ '<' ∧ c ≠ '>' ∧ c ≠ '"' ∧ c ≠ '\'') ∧
    (∀ i : Nat, (escapeHtml s).data[i]? = some '&' →
      startsEntity ((escapeHtml s).data.drop i) = true) ∧
    unescapeHtml (escapeHtml s) = s ∧
    (∀ t : String, escapeHtml s = escapeHtml t → s = t) ∧
    (∀ (cart : List LineItem) (c : Container) (sub : Option String) (c' : Container),
      (renderCartInto cart (some c) sub).1 = some c' →
      ∀ r ∈ c'.rows, ∃ it ∈ cart,
        r.html = rowBeforeName it.img ++ escapeHtml it.name ++ rowBetweenNames ++
          escapeHtml it.name ++ rowAfterName it.price it.qty r.idx) := by
  refine ⟨?_, ?_, ?_, ?_, ?_⟩
  · exact escapeChars_clean s.data
  · exact escapeChars_amp s.data
  · simp [unescapeHtml, escapeHtml, unescape_escapeChars]
  · intro t h
    have h1 : unescapeHtml (escapeHtml s) = unescapeHtml (escapeHtml t) := by rw [h]
    simpa [unescapeHtml, escapeHtml, unescape_escapeChars] using h1
  · intro cart c sub c' h r hr
    unfold renderCartInto at h
    simp only at h
    split_ifs at h with hlen
    · simp at h
      subst h
      simp at hr
    · simp at h
      subst h
      exact rowsFrom_mem cart 0 r hr

/-- Witness of C7: the row built for the name `a<b` carries the escaped name
twice, between the three pieces of markup that do not depend on the name. -/
theorem escapeHtml_safe_witness :
    ∃ it ∈ [(⟨"a<b", JSNumber.ofInt 5, 1, ""⟩ : LineItem)],
      (⟨rowHtml ⟨"a<b", JSNumber.ofInt 5, 1, ""⟩ 0, 0⟩ : Row).html =
        rowBeforeName it.img ++ escapeHtml it.name ++ rowBetweenNames ++
          escapeHtml it.name ++ rowAfterName it.price it.qty
            (⟨rowHtml ⟨"a<b", JSNumber.ofInt 5, 1, ""⟩ 0, 0⟩ : Row).idx :=
  (escapeHtml_safe "a<b").2.2.2.2 [⟨"a<b", JSNumber.ofInt 5, 1, ""⟩] ⟨"", []⟩ none
    ⟨"", [⟨rowHtml ⟨"a<b", JSNumber.ofInt 5, 1, ""⟩ 0, 0⟩]⟩ rfl
    ⟨rowHtml ⟨"a<b", JSNumber.ofInt 5, 1, ""⟩ 0, 0⟩ (by simp)

/-! ### Binding the add-to-cart buttons -/

/-- C6 (the code at the failing inputs): a price text whose first run of digits
and points is not a numeral gives `NaN`, not 0: `1.2.3` and `Rs. 500` (whose first
run is the single point) both do, and a click on a card with the price text
`1.2.3` stores a line item whose price is `NaN`.  A text without any digit or
point, and a missing price, do give 0 through the fallback `|| [0]`. -/
theorem extractPrice_dotted_run_is_nan :
    extractPrice (some "1.2.3") = JSNumber.nan ∧
    extractPrice (some "Rs. 500") = JSNumber.nan ∧
    (clickAddButton sampleState ⟨some "1", 1, some dottedCard⟩).cart =
      [⟨"mug", JSNumber.nan, 1, ""⟩] ∧
    extractPrice (some "free") = JSNumber.ofInt 0 ∧
    extractPrice none = JSNumber.ofInt 0 := by
  refine ⟨by decide, by decide, by decide, by decide, by decide⟩

/-! ### The subtotal text -/

theorem toDigitsCore_length_pos (fuel : Nat) (n : Nat) (acc : List Char) (h : n < fuel) :
    acc.length < (Nat.toDigitsCore 10 fuel n acc).length := by
  induction fuel generalizing n acc with
  | zero => omega
  | succ fuel ih =>
    rw [Nat.toDigitsCore]
    split
    · simp
    · have := ih (n / 10) (Nat.digitChar (n % 10) :: acc) (by omega)
      simp at this
      omega

theorem digits_length_pos (n : Nat) : 0 < (JSNumber.digits n).length := by
  have := toDigitsCore_length_pos (n + 1) n [] (by omega)
  simpa [JSNumber.digits, Nat.toDigits] using this

/-- C5 (as amended): loading persisted state.  When the entry `cart` is absent or
empty the loaded cart is the empty list, and when the entry `order` is absent or
empty the loaded order is `null`, in both cases without an exception; any other
stored text is handed to `JSON.parse`, so the loaded value is the value of the
text when it is well-formed, and the `SyntaxError` of `JSON.parse` is raised when
it is malformed.  The cart text that `clearCart` and the checkout submission
store loads as the empty list. -/
theorem load_persisted_state (st : Storage) :
    (st.cart = none ∨ st.cart = some "" → loadCart st = Except.ok (JSVal.arr JSItems.nil)) ∧
    (st.order = none ∨ st.order = some "" → loadOrder st = Except.ok JSVal.null) ∧
    (∀ t : String, st.cart = some t → t ≠ "" → loadCart st = jsonParse t) ∧
    (∀ t : String, st.order = some t → t ≠ "" → loadOrder st = jsonParse t) ∧
    (∀ t : String, st.cart = some t → t ≠ "" → jsonParse t = Except.error "SyntaxError" →
      loadCart st = Except.error "SyntaxError") ∧
    (∀ t : String, st.order = some t → t ≠ "" → jsonParse t = Except.error "SyntaxError" →
      loadOrder st = Except.error "SyntaxError") ∧
    (∀ s : State, loadCart (clearCart s).storage = Except.ok (JSVal.arr JSItems.nil)) ∧
    (∀ (s : State) (rand : Nat) (date : String) (form : FormData),
      loadCart (submitCheckout s rand date form).storage = Except.ok (JSVal.arr JSItems.nil)) := by
  refine ⟨?_, ?_, ?_, ?_, ?_, ?_, ?_, ?_⟩
  · rintro (h | h) <;> simp only [loadCart, h, getItemOr] <;> rfl
  · rintro (h | h) <;> simp only [loadOrder, h, getItemOr] <;> rfl
  · intro t h ht
    simp [loadCart, h, getItemOr, ht]
  · intro t h ht
    simp [loadOrder, h, getItemOr, ht]
  · intro t h ht herr
    simp [loadCart, h, getItemOr, ht, herr]
  · intro t h ht herr
    simp [loadOrder, h, getItemOr, ht, herr]
  · intro s
    have h : (clearCart s).storage.cart = some "[]" := by
      simp only [clearCart, closeSidebar_storage, renderAllCartUIs_storage]
      rfl
    rw [loadCart, h]
    rfl
  · intro s rand date form
    rfl

/-- Witness of C5: an absent cart entry loads as the empty list, the text `[]`
loads as the empty list, and the text `null` under `order` loads as `null`. -/
theorem load_persisted_state_witness :
    loadCart ⟨none, none⟩ = Except.ok (JSVal.arr JSItems.nil) ∧
    loadCart ⟨some "[]", none⟩ = jsonParse "[]" ∧
    loadOrder ⟨none, some "null"⟩ = jsonParse "null" :=
  ⟨(load_persisted_state ⟨none, none⟩).1 (Or.inl rfl),
   (load_persisted_state ⟨some "[]", none⟩).2.2.1 "[]" rfl (by decide),
   (load_persisted_state ⟨none, some "null"⟩).2.2.2.1 "null" rfl (by decide)⟩

/-- Counterexample to C5 as stated: malformed text under `cart` or under `order`
makes the load raise a `SyntaxError` instead of giving the empty list or `null`,
and the well-formed text `null` under `cart` loads as `null`, which is not a
list. -/
theorem load_malformed_throws :
    loadCart ⟨some "oops", none⟩ = Except.error "SyntaxError" ∧
    loadCart ⟨some "[1,", none⟩ = Except.error "SyntaxError" ∧
    loadOrder ⟨none, some "oops"⟩ = Except.error "SyntaxError" ∧
    loadCart ⟨some "null", none⟩ = Except.ok JSVal.null := by
  refine ⟨by rfl, by rfl, by rfl, by rfl⟩

/-! ### Checkout -/

theorem rowsFrom_getElem? (cart : List LineItem) (k i : Nat) :
    (rowsFrom cart k)[i]? = (cart[i]?).map (fun it => ⟨rowHtml it (k + i), k + i⟩) := by
  induction cart generalizing k i with
  | nil => simp [rowsFrom]
  | cons a cart ih =>
    cases i with
    | zero => simp [rowsFrom]
    | succ i =>
      simp only [rowsFrom, List.getElem?_cons_succ, ih]
      have : k + 1 + i = k + (i + 1) := by omega
      rw [this]

theorem renderCartInto_rows (cart : List LineItem) (c0 : Option Container) (sub : Option String)
    (c : Container) (h : (renderCartInto cart c0 sub).1 = some c) : c.rows = rowsFrom cart 0 := by
  unfold renderCartInto at h
  split at h
  · simp at h
  · split_ifs at h with hlen
    · simp only [Option.some.injEq] at h
      subst h
      have : cart = [] := List.length_eq_zero.1 hlen
      subst this
      rfl
    · simp only [Option.some.injEq] at h
      subst h
      rfl

theorem rowsMatch_render (s : State) : RowsMatch (renderAllCartUIs s) := by
  constructor
  · intro c hc
    exact renderCartInto_rows s.cart s.dom.cartItems s.dom.cartSubtotal c hc
  · intro c hc
    simp only [renderAllCartUIs, refreshCartCountUI] at hc
    cases hm : s.dom.miniItems with
    | none => simp [hm] at hc
    | some c0 =>
      simp only [hm] at hc
      exact renderCartInto_rows s.cart (some c0) s.dom.miniSubtotal c hc

theorem rowsMatch_openSidebar (s : State) (h : RowsMatch s) : RowsMatch (openSidebar s) := by
  unfold openSidebar
  split
  · exact h
  · exact rowsMatch_render _

theorem rowsMatch_closeSidebar (s : State) (h : RowsMatch s) : RowsMatch (closeSidebar s) := by
  unfold closeSidebar
  split
  · exact h
  · exact h

theorem rowsMatch_incClick (s s' : State) (i : Nat) (h : incClick s i = some s') :
    RowsMatch s' := by
  unfold incClick at h
  split at h
  · simp at h
  · injection h with h
    subst h
    exact rowsMatch_render _

theorem rowsMatch_decClick (s s' : State) (i : Nat) (h : decClick s i = some s') :
    RowsMatch s' := by
  unfold decClick at h
  split at h
  · simp at h
  · injection h with h
    subst h
    exact rowsMatch_render _

theorem rowsMatch_step (s s' : State) (ev : Event) (hs : RowsMatch s)
    (hev : ev.isSubmit = false) (h : step s ev = some s') : RowsMatch s' := by
  cases ev with
  | add name price img =>
    simp only [step, Option.some.injEq] at h
    subst h
    exact rowsMatch_openSidebar _ (rowsMatch_render _)
  | inc mini row =>
    simp only [step, Option.map_eq_some'] at h
    obtain ⟨idx, _, rfl⟩ := h
    cases hc : incClick s idx with
    | none => simpa using hs
    | some t => simpa using rowsMatch_incClick s t idx hc
  | dec mini row =>
    simp only [step, Option.map_eq_some'] at h
    obtain ⟨idx, _, rfl⟩ := h
    cases hc : decClick s idx with
    | none => simpa using hs
    | some t => simpa using rowsMatch_decClick s t idx hc
  | remove mini row =>
    simp only [step, Option.map_eq_some'] at h
    obtain ⟨idx, _, rfl⟩ := h
    exact rowsMatch_render _
  | clear =>
    simp only [step, Option.some.injEq] at h
    subst h
    exact rowsMatch_closeSidebar _ (rowsMatch_render _)
  | submit rand date form => simp [Event.isSubmit] at hev

theorem rowsMatch_run (evs : List Event) :
    ∀ (s s' : State), RowsMatch s → (∀ ev ∈ evs, ev.isSubmit = false) → run s evs = some s' →
      RowsMatch s' := by
  induction evs with
  | nil =>
    intro s s' hs _ h
    simp only [run, Option.some.injEq] at h
    subst h
    exact hs
  | cons ev evs ih =>
    intro s s' hs hev h
    simp only [run] at h
    split at h
    · simp at h
    · rename_i s1 hs1
      exact ih s1 s' (rowsMatch_step s s1 ev hs (hev ev (List.mem_cons_self _ _)) hs1)
        (fun e he => hev e (List.mem_cons_of_mem _ he)) h

theorem capturedIdx_of_rowsMatch (s : State) (hs : RowsMatch s) (mini : Bool) (row idx : Nat)
    (h : capturedIdx s mini row = some idx) : idx = row ∧ idx < s.cart.length := by
  unfold capturedIdx at h
  split at h
  · simp at h
  · rename_i c hc
    have hrows : c.rows = rowsFrom s.cart 0 := by
      cases mini with
      | true => exact hs.2 c (by simpa using hc)
      | false => exact hs.1 c (by simpa using hc)
    rw [hrows, rowsFrom_getElem?] at h
    simp only [Option.map_map, Option.map_eq_some'] at h
    obtain ⟨it, hit, hidx⟩ := h
    have hlt : row < s.cart.length := by
      rcases List.getElem?_eq_some.1 hit with ⟨hlt, _⟩
      exact hlt
    simp at hidx
    omega

/-- C10 (as amended): in every state reached from the initial render by the
handlers of add, increment, decrement, remove and clear events, the rows shown in
each cart container are the rows of the cart's line items, one for one and in
order; so the index held by the controls of a row is the position of the row, it
is a valid index of the current cart, and the increment and decrement handlers
of the row return without reading a missing item. -/
theorem rows_match_cart (s0 : State) (evs : List Event) (s : State)
    (hev : ∀ ev ∈ evs, ev.isSubmit = false) (hrun : run (initCommon s0) evs = some s) :
    RowsMatch s ∧
    ∀ (mini : Bool) (row idx : Nat), capturedIdx s mini row = some idx →
      idx = row ∧ idx < s.cart.length ∧
      (incClick s idx).isSome = true ∧ (decClick s idx).isSome = true := by
  have hs : RowsMatch s := rowsMatch_run evs (initCommon s0) s (rowsMatch_render s0) hev hrun
  refine ⟨hs, ?_⟩
  intro mini row idx h
  obtain ⟨h1, h2⟩ := capturedIdx_of_rowsMatch s hs mini row idx h
  refine ⟨h1, h2, ?_, ?_⟩
  · simp [incClick, inc_of_lt s.cart idx h2]
  · rw [decClick, dec_of_lt s.cart idx h2]
    by_cases hq : qtyOr1 s.cart[idx].qty - 1 ≤ 0 <;> simp [hq]

/-- Witness of C10: after a cap is added to the rendered mug cart, the second row
of `#cart-items` holds the index 1, which is a valid index of the cart, and its
increment and decrement handlers return. -/
theorem rows_match_cart_witness :
    1 = 1 ∧ 1 < mugCapState.cart.length ∧
      (incClick mugCapState 1).isSome = true ∧ (decClick mugCapState 1).isSome = true :=
  (rows_match_cart { sampleState with cart := [⟨"mug", JSNumber.ofInt 5, 1, ""⟩] }
    [Event.add "cap" (JSNumber.ofInt 7) ""] mugCapState (by decide) rfl).2 false 1 1
    (by decide!)

/-- Counterexample to C10 as stated: after the checkout form is submitted on a
page showing the mug row, the cart is empty while `#cart-items` still shows the
row whose controls hold the index 0; that index is not a valid index of the cart,
and the increment and decrement handlers of the row throw. -/
theorem submit_leaves_stale_rows :
    run mugState [Event.submit 123456 "2024-01-01T00:00:00.000Z" sampleForm] =
      some submittedState ∧
    submittedState.cart = [] ∧
    capturedIdx submittedState false 0 = some 0 ∧
    ¬ (0 < submittedState.cart.length) ∧
    incClick submittedState 0 = none ∧
    decClick submittedState 0 = none := by
  refine ⟨rfl, rfl, by decide!, by decide, rfl, rfl⟩

end Script
